import Mathlib

/-!
Shallow embedding of the content ingestion and localization pipeline of the
rss-reader repository (src/db.rs), together with theorems settling the
frozen claims about it.

Modelling conventions:
* Filesystem state is explicit: `DbState` records the article files, the
  image files, the rows appended to `index.csv`, and a log of network
  fetches performed (used to observe "no network fetch" properties).
* External crates (sha2 digests, chrono date parsing and formatting,
  html2md conversion, reqwest networking) and filesystem fault behaviour
  are abstracted into an `Env` record of functions; the control flow around
  them is translated from src/db.rs.
* The `url` crate's `Url::parse` and `std::path::Path::extension` are
  modelled concretely (`parseUrl`, `pathExtension`) for the two fields this
  code reads (scheme and path); dot-segments and percent-encoding, which
  the url crate normalizes away, are assumed absent.
* The two regexes of db.rs are modelled by explicit scanners with the
  regex crate's leftmost-first, greedy semantics.
-/

namespace RssReader

/-- Character code 34, the double-quote character. -/
def dquoteChar : Char := Char.ofNat 34

/-- Character code 39, the single-quote character. -/
def squoteChar : Char := Char.ofNat 39

/-- True for the two quote characters accepted by the attribute regexes. -/
def isQuote (c : Char) : Bool := c = dquoteChar || c = squoteChar

/-- ASCII lowercase of one character (models `char::to_ascii_lowercase`). -/
def asciiLowerChar (c : Char) : Char :=
  if 'A' ≤ c ∧ c ≤ 'Z' then Char.ofNat (c.toNat + 32) else c

/-- ASCII lowercase of a string (models `str::to_ascii_lowercase`). -/
def asciiLower (s : String) : String := String.mk (s.data.map asciiLowerChar)

/-- Does `pat` occur as a prefix of `cs`? -/
def matchesAt (pat cs : List Char) : Bool := cs.take pat.length == pat

/-- Does `pat` occur as a substring of `cs`? (models `str::contains`). -/
def listContainsSub (pat : List Char) : List Char → Bool
  | [] => matchesAt pat []
  | c :: rest => matchesAt pat (c :: rest) || listContainsSub pat rest

/-- Substring containment on strings (models `str::contains`). -/
def containsSubstr (s pat : String) : Bool := listContainsSub pat.data s.data

/-- Association-list lookup keyed by string equality; the model of both
filesystem-directory lookups and `HashMap::get`. -/
def assocLookup {α : Type} : List (String × α) → String → Option α
  | [], _ => none
  | (k0, v) :: rest, k => if k0 = k then some v else assocLookup rest k

/-- Number of entries of an association list having the given key. -/
def countKey {α : Type} (l : List (String × α)) (k : String) : Nat :=
  (l.filter (fun p => p.1 = k)).length

/-- Result of one HTTP GET, as observed by `download_image`: either a
transport error from `send()`, or a response carrying a status-success
flag, an optional content-type header value, whether reading the body
errored, and the body bytes. -/
inductive FetchResult where
  | netErr : FetchResult
  | resp (success : Bool) (contentType : Option String) (bodyErr : Bool)
      (bytes : String) : FetchResult
deriving DecidableEq

/-- One RSS item as consumed by the store (the fields of `rss::Item` that
src/db.rs reads). -/
structure Item where
  title : Option String
  link : Option String
  pubDate : Option String
  content : Option String
  description : Option String
deriving DecidableEq

/-- The abstracted external world: digests (sha2+hex), chrono date
parsing/formatting (instants abstracted to `Int`), html2md conversion,
reqwest networking, filesystem fault injection, and the configured store
directory. The control flow of src/db.rs is translated over these. -/
structure Env where
  hash : String → String
  parseRfc2822 : String → Option Int
  parseRfc3339 : String → Option Int
  formatUtcRfc3339 : Int → String
  nowRfc3339 : String
  parseHtml : String → String
  net : String → FetchResult
  readFails : String → Bool
  writeFails : String → Bool
  storeDir : String

/-- Explicit filesystem/index state of the store: article files keyed by
filename, image files keyed by filename, the appended `index.csv` rows,
and the log of URLs fetched over the network (observability of fetches). -/
structure DbState where
  articles : List (String × String)
  images : List (String × String)
  indexRows : List (List String)
  fetchLog : List String
deriving DecidableEq

/-- The empty store. -/
def db0 : DbState := ⟨[], [], [], []⟩

/-- Scheme and path of a parsed URL (the two fields src/db.rs reads). -/
structure UrlParts where
  scheme : String
  path : String
deriving DecidableEq, Repr

/-- Models `Url::parse` from the `url` crate, restricted to the fields this
code reads (scheme and path): a valid scheme followed by a colon, optional
slashes, a non-empty authority, and a path running to the query/fragment.
An absent path is normalized to "/" as the url crate does for special
schemes. -/
def parseUrl (s : String) : Option UrlParts :=
  let cs := s.data
  let schemeChars := cs.takeWhile (fun c => c != ':')
  if schemeChars.length = cs.length then none
  else if schemeChars.isEmpty then none
  else if ¬ ((schemeChars.headD 'a').isAlpha ∧
      schemeChars.all (fun c => c.isAlphanum || c = '+' || c = '-' || c = '.')) then none
  else
    let scheme := asciiLower (String.mk schemeChars)
    let rest := cs.drop (schemeChars.length + 1)
    let afterSlashes := rest.dropWhile (fun c => c = '/')
    let authority := afterSlashes.takeWhile (fun c => c != '/' && c != '?' && c != '#')
    if authority.isEmpty then none
    else
      let tail := afterSlashes.drop authority.length
      let path := tail.takeWhile (fun c => c != '?' && c != '#')
      some { scheme := scheme,
             path := if path.isEmpty then "/" else String.mk path }

/-- Splits a character list at every occurrence of the separator character
(a structural-recursion counterpart of `String.splitOn` for one-character
separators). -/
def splitOnChar (sep : Char) : List Char → List (List Char)
  | [] => [[]]
  | c :: rest =>
    let r := splitOnChar sep rest
    if c = sep then [] :: r
    else
      match r with
      | [] => [[c]]
      | h :: t => (c :: h) :: t

/-- Models `Path::new(path).extension().and_then(to_str)` for slash-separated
paths: the suffix of the last non-empty component after its last dot, absent
when that component has no dot or only a leading dot. -/
def pathExtension (path : String) : Option String :=
  match ((splitOnChar '/' path.data).filter (fun s => ¬ s.isEmpty)).getLast? with
  | none => none
  | some name =>
    match splitOnChar '.' name with
    | [] => none
    | [_] => none
    | [[], _] => none
    | parts => parts.getLast?.map String.mk

/-- Translation of `hash_string` (src/db.rs:169-174); the sha2 digest and
hex encoding live in `env.hash`. -/
def hash_string (env : Env) (input : String) : String := env.hash input

/-- The pre-digest identity encoding built by `item_filename`
(src/db.rs:285): the five fields joined with the pipe separator. -/
def item_hash_input (feedName feedUrl title link time : String) : String :=
  feedName ++ "|" ++ feedUrl ++ "|" ++ title ++ "|" ++ link ++ "|" ++ time

/-- Translation of `item_filename` (src/db.rs:284-287). -/
def item_filename (env : Env) (feedName feedUrl title link time : String) : String :=
  hash_string env (item_hash_input feedName feedUrl title link time) ++ ".md"

/-- Translation of `owned_extension` (src/db.rs:302-313). -/
def owned_extension (ext : String) : String :=
  let e := asciiLower ext
  if e = "png" then "png"
  else if e = "jpeg" then "jpg"
  else if e = "jpg" then "jpg"
  else if e = "webp" then "webp"
  else if e = "gif" then "gif"
  else if e = "svg" then "svg"
  else if e = "svgz" then "svg"
  else "img"

/-- Translation of `content_type_extension` (src/db.rs:315-325). -/
def content_type_extension (contentType : Option String) : Option String :=
  match contentType with
  | some ct =>
    if containsSubstr ct "image/png" then some "png"
    else if containsSubstr ct "image/jpeg" then some "jpg"
    else if containsSubstr ct "image/jpg" then some "jpg"
    else if containsSubstr ct "image/webp" then some "webp"
    else if containsSubstr ct "image/gif" then some "gif"
    else if containsSubstr ct "image/svg+xml" then some "svg"
    else none
  | none => none

/-- Translation of `image_extension` (src/db.rs:289-300): the URL path
suffix is consulted first, the content type only when the URL fails to
parse or its path has no extension. -/
def image_extension (url : String) (contentType : Option String) : Option String :=
  match parseUrl url with
  | some parsed =>
    match pathExtension parsed.path with
    | some ext => some (owned_extension ext)
    | none => content_type_extension contentType
  | none => content_type_extension contentType

/-- Translation of `image_filename` (src/db.rs:279-282). -/
def image_filename (env : Env) (url : String) (contentType : Option String) : String :=
  hash_string env url ++ "." ++ (image_extension url contentType).getD "img"

/-- Translation of `parse_pub_date` (src/db.rs:160-167): RFC 2822 first,
RFC 3339 second, the successful instant normalized to UTC and formatted. -/
def parse_pub_date (env : Env) (input : Option String) : Option String :=
  input.bind fun raw =>
    (match env.parseRfc2822 raw with
     | some dt => some dt
     | none => env.parseRfc3339 raw).map env.formatUtcRfc3339

/-- Translation of `extract_markdown` (src/db.rs:142-150); html2md's
`parse_html` lives in `env.parseHtml`. -/
def extract_markdown (env : Env) (item : Item) : String :=
  match item.content with
  | some c => env.parseHtml c
  | none =>
    match item.description with
    | some d => env.parseHtml d
    | none => ""

/-- Splits `cs` at the leftmost occurrence of the literal `pat`, returning
the part before and the suffix starting with `pat`. -/
def findSub (pat : List Char) : List Char → Option (List Char × List Char)
  | [] => if pat.isEmpty then some ([], []) else none
  | c :: rest =>
    if matchesAt pat (c :: rest) then some ([], c :: rest)
    else match findSub pat rest with
      | some (before, suffix) => some (c :: before, suffix)
      | none => none

/-- Attempts, at the current position, the regex fragment
`KEY["']cap["']` with capture class excluding both quote characters
(`src_attr`/`alt_attr` in src/db.rs:259-260); `allowEmpty` distinguishes
the `+` of the src capture from the `*` of the alt capture. Returns the
capture. -/
def matchAttrValueAt (key : List Char) (allowEmpty : Bool) (cs : List Char) :
    Option (List Char) :=
  if matchesAt key cs then
    match cs.drop key.length with
    | q :: rest =>
      if isQuote q then
        let cap := rest.takeWhile (fun c => ¬ isQuote c)
        if ¬ allowEmpty ∧ cap.isEmpty then none
        else match rest.drop cap.length with
          | q2 :: _ => if isQuote q2 then some cap else none
          | [] => none
      else none
    | [] => none
  else none

/-- Leftmost match of the quoted-attribute regex inside a tag (the
`Regex::captures` calls of `replace_html_img_tags`, src/db.rs:265-272). -/
def findAttrVal (key : List Char) (allowEmpty : Bool) : List Char → Option (List Char)
  | [] => none
  | c :: rest =>
    match matchAttrValueAt key allowEmpty (c :: rest) with
    | some cap => some cap
    | none => findAttrVal key allowEmpty rest

/-- The replacement produced for one whole `<img ...>` tag by the closure in
`replace_html_img_tags` (src/db.rs:263-274): the canonical image form
using the first src/alt attribute values (empty when missing) and the
mapping's target for the src (the src itself when unmapped). -/
def imgTagRewrite (repl : List (String × String)) (tag : List Char) : List Char :=
  let src := (findAttrVal ("src=".data) false tag).getD []
  let alt := (findAttrVal ("alt=".data) true tag).getD []
  let target := ((assocLookup repl (String.mk src)).map String.data).getD src
  "![".data ++ alt ++ "](".data ++ target ++ ")".data

/-- Fueled scan of `Regex::replace_all` with the tag regex of src/db.rs:258
(literal `<img`, then any run of characters other than the closing angle
bracket, then the bracket): each leftmost match is replaced via
`imgTagRewrite` and scanning resumes after the match. Fuel at least the
length of the text makes the scan total. -/
def replaceImgTagsAux (repl : List (String × String)) : Nat → List Char → List Char
  | 0, cs => cs
  | fuel + 1, cs =>
    match findSub ("<img".data) cs with
    | none => cs
    | some (before, suffix) =>
      let inner := suffix.drop 4
      let body := inner.takeWhile (fun c => c != '>')
      match inner.drop body.length with
      | '>' :: after =>
        let tag := "<img".data ++ body ++ ['>']
        before ++ imgTagRewrite repl tag ++ replaceImgTagsAux repl fuel after
      | _ => cs

/-- Translation of `replace_html_img_tags` (src/db.rs:257-277). -/
def replace_html_img_tags (markdown : String) (repl : List (String × String)) : String :=
  String.mk (replaceImgTagsAux repl markdown.data.length markdown.data)

/-- Fueled model of `str::replace` (non-overlapping leftmost occurrences of
`pat` replaced left to right). All call sites pass a non-empty `pat` (the
replacement keys are non-empty regex captures). -/
def strReplaceAux (pat repl : List Char) : Nat → List Char → List Char
  | 0, cs => cs
  | fuel + 1, cs =>
    match findSub pat cs with
    | none => cs
    | some (before, suffix) =>
      before ++ repl ++ strReplaceAux pat repl fuel (suffix.drop pat.length)

/-- Model of `str::replace` on strings. -/
def strReplace (s pat repl : String) : String :=
  if pat.isEmpty then s
  else String.mk (strReplaceAux pat.data repl.data s.data.length s.data)

/-- The rewrite applied by `localize_images` after downloads
(src/db.rs:193-196): whole-tag replacement, then the plain substring
substitution of every mapped URL. -/
def apply_replacements (markdown : String) (repl : List (String × String)) : String :=
  repl.foldl (fun acc p => strReplace acc p.1 p.2) (replace_html_img_tags markdown repl)

/-- Attempts, at the current position, the markdown-image regex of
src/db.rs:239 (bang, bracketed alt run without closing brackets, closing
bracket, opening parenthesis, non-empty capture without closing
parentheses, closing parenthesis). Returns the capture and the rest of the
text after the match. -/
def matchMdImageAt (cs : List Char) : Option (List Char × List Char) :=
  match cs with
  | '!' :: '[' :: rest =>
    let alt := rest.takeWhile (fun c => c != ']')
    match rest.drop alt.length with
    | ']' :: '(' :: rest2 =>
      let url := rest2.takeWhile (fun c => c != ')')
      match url, rest2.drop url.length with
      | _ :: _, ')' :: rest3 => some (url, rest3)
      | _, _ => none
    | _ => none
  | _ => none

/-- Fueled `captures_iter` scan for the markdown-image regex. -/
def mdImageUrls : Nat → List Char → List String
  | 0, _ => []
  | _, [] => []
  | fuel + 1, c :: rest =>
    match matchMdImageAt (c :: rest) with
    | some (url, rest3) => String.mk url :: mdImageUrls fuel rest3
    | none => mdImageUrls fuel rest

/-- Attempts, at the current position, the regex fragment `src=["']cap["']`
inside the extraction regex, returning the capture and the text after the
closing quote. -/
def matchSrcValueAt (cs : List Char) : Option (List Char × List Char) :=
  if matchesAt ("src=".data) cs then
    match cs.drop 4 with
    | q :: rest =>
      if isQuote q then
        let cap := rest.takeWhile (fun c => ¬ isQuote c)
        match cap, rest.drop cap.length with
        | _ :: _, q2 :: rest2 => if isQuote q2 then some (cap, rest2) else none
        | _, _ => none
      else none
    | [] => none
  else none

/-- Greedy backtracking over the split position of the `[^>]+` run in the
extraction regex of src/db.rs:240 (`<img`, a non-empty run without closing
angle brackets, `src=` with a quoted capture, any run without closing
angle brackets, the closing angle bracket): the run length is tried
longest first, exactly as the regex crate's greedy `+` does. -/
def tryHtmlImgSplit (rest : List Char) : Nat → Option (List Char × List Char)
  | 0 => none
  | k + 1 =>
    match matchSrcValueAt (rest.drop (k + 1)) with
    | some (cap, rest2) =>
      let b := rest2.takeWhile (fun c => c != '>')
      (match rest2.drop b.length with
       | '>' :: rest3 => some (cap, rest3)
       | _ => tryHtmlImgSplit rest k)
    | none => tryHtmlImgSplit rest k

/-- Attempts the whole extraction regex at the current position. -/
def matchHtmlImgAt (cs : List Char) : Option (List Char × List Char) :=
  if matchesAt ("<img".data) cs then
    let rest := cs.drop 4
    let k0 := (rest.takeWhile (fun c => c != '>')).length
    tryHtmlImgSplit rest k0
  else none

/-- Fueled `captures_iter` scan for the img-tag extraction regex. -/
def htmlImageUrls : Nat → List Char → List String
  | 0, _ => []
  | _, [] => []
  | fuel + 1, c :: rest =>
    match matchHtmlImgAt (c :: rest) with
    | some (url, rest3) => String.mk url :: htmlImageUrls fuel rest3
    | none => htmlImageUrls fuel rest

/-- First-occurrence deduplication (the `HashSet` of `extract_image_urls`). -/
def dedupAux (seen : List String) : List String → List String
  | [] => []
  | x :: rest =>
    if seen.contains x then dedupAux seen rest
    else x :: dedupAux (x :: seen) rest

/-- Translation of `extract_image_urls` (src/db.rs:237-255). The source
collects the captures of both regexes into a `HashSet` and returns its
elements in unspecified order; the model fixes the order to
first-occurrence (markdown captures first), which no claim depends on. -/
def extract_image_urls (markdown : String) : List String :=
  let cs := markdown.data
  dedupAux [] (mdImageUrls cs.length cs ++ htmlImageUrls cs.length cs)

/-- Translation of `Database::download_image` (src/db.rs:200-234). Effects
before an error persist, so the function always returns the new state next
to the `Except` result. Every network interaction is recorded in
`fetchLog`. The `?` operators of the source on `send()`, `bytes()` and
`fs::write` become `Except.error` results; unparseable URLs, non-http(s)
schemes and non-success statuses return `Except.ok none`. -/
def download_image (env : Env) (st : DbState) (url : String) :
    Except String (Option String) × DbState :=
  match parseUrl url with
  | none => (.ok none, st)
  | some parsed =>
    if parsed.scheme ≠ "http" ∧ parsed.scheme ≠ "https" then (.ok none, st)
    else
      let filename := image_filename env url none
      match assocLookup st.images filename with
      | some _ => (.ok (some ("/images/" ++ filename)), st)
      | none =>
        let st1 : DbState := { st with fetchLog := st.fetchLog ++ [url] }
        match env.net url with
        | .netErr => (.error "error sending request", st1)
        | .resp success contentType bodyErr bytes =>
          if ¬ success then (.ok none, st1)
          else if bodyErr then (.error "error reading body", st1)
          else
            let filename2 := image_filename env url contentType
            match assocLookup st1.images filename2 with
            | some _ => (.ok (some ("/images/" ++ filename2)), st1)
            | none =>
              if env.writeFails filename2 then
                (.error "Failed to write image file", st1)
              else
                (.ok (some ("/images/" ++ filename2)),
                 { st1 with images := (filename2, bytes) :: st1.images })

/-- The download loop of `Database::localize_images` (src/db.rs:183-191):
URLs already mapped are skipped, a download error aborts the loop, an
absent result leaves the URL unmapped. -/
def localizeLoop (env : Env) :
    List String → List (String × String) → DbState →
    Except String (List (String × String)) × DbState
  | [], repl, st => (.ok repl, st)
  | url :: rest, repl, st =>
    match assocLookup repl url with
    | some _ => localizeLoop env rest repl st
    | none =>
      match download_image env st url with
      | (.error e, st2) => (.error e, st2)
      | (.ok none, st2) => localizeLoop env rest repl st2
      | (.ok (some localRef), st2) => localizeLoop env rest (repl ++ [(url, localRef)]) st2

/-- Translation of `Database::localize_images` (src/db.rs:177-198). -/
def localize_images (env : Env) (st : DbState) (markdown : String) :
    Except String String × DbState :=
  let urls := extract_image_urls markdown
  if urls.isEmpty then (.ok markdown, st)
  else
    match localizeLoop env urls [] st with
    | (.error e, st2) => (.error e, st2)
    | (.ok repl, st2) => (.ok (apply_replacements markdown repl), st2)

/-- Translation of `Database::store_item` (src/db.rs:81-125). A read failure
on an existing artifact is absorbed into the empty string
(`unwrap_or_default`); a write failure on the artifact is propagated; the
`index.csv` append (whose own failures no claim concerns) is modelled as
always succeeding. -/
def store_item (env : Env) (st : DbState) (feedName feedUrl : String) (item : Item) :
    Except String String × DbState :=
  let title := item.title.getD "No Title"
  let link := item.link.getD ""
  let publishedAt := parse_pub_date env item.pubDate
  let timeForHash := publishedAt.getD ""
  let timeForCsv := publishedAt.getD env.nowRfc3339
  let filename := item_filename env feedName feedUrl title link timeForHash
  match assocLookup st.articles filename with
  | some existing =>
    if env.readFails filename then (.ok "", st) else (.ok existing, st)
  | none =>
    let contentMarkdown := extract_markdown env item
    match localize_images env st contentMarkdown with
    | (.error e, st2) => (.error e, st2)
    | (.ok updated, st2) =>
      if env.writeFails filename then (.error "Failed to write markdown file", st2)
      else
        let st3 : DbState := { st2 with articles := (filename, updated) :: st2.articles }
        let row := [timeForCsv, title, feedName, env.storeDir ++ "/" ++ filename]
        (.ok updated, { st3 with indexRows := st3.indexRows ++ [row] })

/-- Translation of `Database::read_item_markdown` (src/db.rs:127-139): a
pure read recomputing the identity exactly as `store_item` does; a missing
file and a failing read both yield `none` (`.ok()`). -/
def read_item_markdown (env : Env) (st : DbState) (feedName feedUrl : String)
    (item : Item) : Option String :=
  let title := item.title.getD "No Title"
  let link := item.link.getD ""
  let publishedAt := (parse_pub_date env item.pubDate).getD ""
  let filename := item_filename env feedName feedUrl title link publishedAt
  if env.readFails filename then none else assocLookup st.articles filename

/-- Translation of `Database::store_channel` (src/db.rs:68-79): items are
ingested in order and the first error aborts the loop, the state reached
so far kept. -/
def store_channel (env : Env) (st : DbState) (feedName feedUrl : String) :
    List Item → Except String Unit × DbState
  | [] => (.ok (), st)
  | item :: rest =>
    match store_item env st feedName feedUrl item with
    | (.error e, st2) => (.error e, st2)
    | (.ok _, st2) => store_channel env st2 feedName feedUrl rest

/-- The artifact filename `store_item` computes for an item, as one
definition for use in theorem statements. -/
def store_key (env : Env) (feedName feedUrl : String) (item : Item) : String :=
  item_filename env feedName feedUrl (item.title.getD "No Title") (item.link.getD "")
    ((parse_pub_date env item.pubDate).getD "")

/-! Lemmas about the embedded operations. The `_eq` lemmas are the
definitional unfoldings of the stateful operations with the intermediate
`let`-bindings expanded; they hold by `rfl` and give the later proofs
`split`-friendly shapes. -/

theorem download_image_eq (env : Env) (st : DbState) (url : String) :
    download_image env st url =
      match parseUrl url with
      | none => (.ok none, st)
      | some parsed =>
        if parsed.scheme ≠ "http" ∧ parsed.scheme ≠ "https" then (.ok none, st)
        else
          match assocLookup st.images (image_filename env url none) with
          | some _ => (.ok (some ("/images/" ++ image_filename env url none)), st)
          | none =>
            match env.net url with
            | .netErr => (.error "error sending request",
                { st with fetchLog := st.fetchLog ++ [url] })
            | .resp success contentType bodyErr bytes =>
              if ¬ success then (.ok none, { st with fetchLog := st.fetchLog ++ [url] })
              else if bodyErr then (.error "error reading body",
                  { st with fetchLog := st.fetchLog ++ [url] })
              else
                match assocLookup st.images (image_filename env url contentType) with
                | some _ => (.ok (some ("/images/" ++ image_filename env url contentType)),
                    { st with fetchLog := st.fetchLog ++ [url] })
                | none =>
                  if env.writeFails (image_filename env url contentType) then
                    (.error "Failed to write image file",
                     { st with fetchLog := st.fetchLog ++ [url] })
                  else
                    (.ok (some ("/images/" ++ image_filename env url contentType)),
                     ⟨st.articles,
                      (image_filename env url contentType, bytes) :: st.images,
                      st.indexRows, st.fetchLog ++ [url]⟩) := rfl

theorem localize_images_eq (env : Env) (st : DbState) (markdown : String) :
    localize_images env st markdown =
      if (extract_image_urls markdown).isEmpty then (.ok markdown, st)
      else
        match localizeLoop env (extract_image_urls markdown) [] st with
        | (.error e, st2) => (.error e, st2)
        | (.ok repl, st2) => (.ok (apply_replacements markdown repl), st2) := rfl

theorem store_item_eq (env : Env) (st : DbState) (f u : String) (item : Item) :
    store_item env st f u item =
      match assocLookup st.articles (store_key env f u item) with
      | some existing =>
        if env.readFails (store_key env f u item) then (.ok "", st)
        else (.ok existing, st)
      | none =>
        match localize_images env st (extract_markdown env item) with
        | (.error e, st2) => (.error e, st2)
        | (.ok updated, st2) =>
          if env.writeFails (store_key env f u item) then
            (.error "Failed to write markdown file", st2)
          else
            (.ok updated,
             { st2 with
               articles := (store_key env f u item, updated) :: st2.articles,
               indexRows := st2.indexRows ++
                 [[(parse_pub_date env item.pubDate).getD env.nowRfc3339,
                   item.title.getD "No Title", f,
                   env.storeDir ++ "/" ++ store_key env f u item]] }) := rfl

theorem read_item_markdown_eq (env : Env) (st : DbState) (f u : String) (item : Item) :
    read_item_markdown env st f u item =
      if env.readFails (store_key env f u item) then none
      else assocLookup st.articles (store_key env f u item) := rfl

theorem download_image_preserves (env : Env) (st : DbState) (url : String) :
    (download_image env st url).2.articles = st.articles ∧
    (download_image env st url).2.indexRows = st.indexRows := by
  rw [download_image_eq]
  repeat' split
  all_goals exact ⟨rfl, rfl⟩

theorem localizeLoop_preserves (env : Env) :
    ∀ (urls : List String) (repl : List (String × String)) (st : DbState),
    (localizeLoop env urls repl st).2.articles = st.articles ∧
    (localizeLoop env urls repl st).2.indexRows = st.indexRows := by
  intro urls
  induction urls with
  | nil => intro repl st; exact ⟨rfl, rfl⟩
  | cons url rest ih =>
    intro repl st
    unfold localizeLoop
    cases hr : assocLookup repl url with
    | some v => exact ih repl st
    | none =>
      simp only
      have hdl := download_image_preserves env st url
      cases hd : download_image env st url with
      | mk res st2 =>
        rw [hd] at hdl
        cases res with
        | error e => exact hdl
        | ok opt =>
          cases opt with
          | none => exact ⟨(ih repl st2).1.trans hdl.1, (ih repl st2).2.trans hdl.2⟩
          | some localRef =>
            exact ⟨(ih _ st2).1.trans hdl.1, (ih _ st2).2.trans hdl.2⟩

theorem localize_images_preserves (env : Env) (st : DbState) (markdown : String) :
    (localize_images env st markdown).2.articles = st.articles ∧
    (localize_images env st markdown).2.indexRows = st.indexRows := by
  rw [localize_images_eq]
  by_cases he : (extract_image_urls markdown).isEmpty
  · rw [if_pos he]; exact ⟨rfl, rfl⟩
  · rw [if_neg he]
    have h := localizeLoop_preserves env (extract_image_urls markdown) [] st
    cases hl : localizeLoop env (extract_image_urls markdown) [] st with
    | mk res st2 =>
      rw [hl] at h
      cases res with
      | error e => exact h
      | ok repl => exact h

/-- When the artifact already exists, `store_item` reads it back (or absorbs
a read failure into the empty string) and changes nothing. -/
theorem store_item_hit (env : Env) (st : DbState) (f u : String) (item : Item)
    (c : String) (h : assocLookup st.articles (store_key env f u item) = some c) :
    store_item env st f u item =
      (if env.readFails (store_key env f u item) then (.ok "", st)
       else (.ok c, st)) := by
  rw [store_item_eq, h]

/-- When the artifact does not yet exist, `store_item` localizes the
converted markdown and either propagates the error, propagates a write
failure, or records the artifact and appends one index row. -/
theorem store_item_fresh (env : Env) (st : DbState) (f u : String) (item : Item)
    (h : assocLookup st.articles (store_key env f u item) = none) :
    store_item env st f u item =
      match localize_images env st (extract_markdown env item) with
      | (.error e, st2) => (.error e, st2)
      | (.ok updated, st2) =>
        if env.writeFails (store_key env f u item) then
          (.error "Failed to write markdown file", st2)
        else
          (.ok updated,
           { st2 with
             articles := (store_key env f u item, updated) :: st2.articles,
             indexRows := st2.indexRows ++
               [[(parse_pub_date env item.pubDate).getD env.nowRfc3339,
                 item.title.getD "No Title", f,
                 env.storeDir ++ "/" ++ store_key env f u item]] }) := by
  rw [store_item_eq, h]

theorem assocLookup_cons {α : Type} (k0 : String) (v : α) (l : List (String × α))
    (k : String) :
    assocLookup ((k0, v) :: l) k = if k0 = k then some v else assocLookup l k := rfl

theorem assocLookup_none_countKey {α : Type} :
    ∀ (l : List (String × α)) (k : String), assocLookup l k = none → countKey l k = 0 := by
  intro l
  induction l with
  | nil => intro k _; rfl
  | cons p rest ih =>
    intro k h
    rcases p with ⟨k0, v⟩
    rw [assocLookup_cons] at h
    by_cases hk : k0 = k
    · rw [if_pos hk] at h; exact absurd h (by simp)
    · rw [if_neg hk] at h
      have hrest := ih k h
      unfold countKey at hrest ⊢
      rw [List.filter_cons]
      simp [hk, hrest]

theorem countKey_cons_self {α : Type} (k : String) (v : α) (l : List (String × α)) :
    countKey ((k, v) :: l) k = countKey l k + 1 := by
  unfold countKey
  rw [List.filter_cons]
  simp

/-- A successful `store_item` leaves the artifact under the computed key
holding exactly the returned text, provided reads of it do not fail. -/
theorem store_item_ok_lookup (env : Env) (st : DbState) (f u : String) (item : Item)
    (text : String) (st' : DbState)
    (h : store_item env st f u item = (.ok text, st'))
    (hr : env.readFails (store_key env f u item) = false) :
    assocLookup st'.articles (store_key env f u item) = some text := by
  cases hl : assocLookup st.articles (store_key env f u item) with
  | some c =>
    rw [store_item_hit env st f u item c hl] at h
    simp only [hr, Bool.false_eq_true, if_false, Prod.mk.injEq, Except.ok.injEq] at h
    rw [← h.2, hl, h.1]
  | none =>
    rw [store_item_fresh env st f u item hl] at h
    cases hloc : localize_images env st (extract_markdown env item) with
    | mk res st2 =>
      rw [hloc] at h
      cases res with
      | error e => simp at h
      | ok updated =>
        by_cases hw : env.writeFails (store_key env f u item) = true
        · simp only [hw, if_true] at h
          simp at h
        · simp only [hw, Bool.false_eq_true, if_false, Prod.mk.injEq,
            Except.ok.injEq] at h
          rw [← h.2]
          rw [assocLookup_cons, if_pos rfl, h.1]

/-- `store_item` never removes or replaces an existing artifact. -/
theorem store_item_article_mono (env : Env) (st : DbState) (f u : String)
    (item : Item) (k v : String)
    (h : assocLookup st.articles k = some v) :
    assocLookup (store_item env st f u item).2.articles k = some v := by
  cases hl : assocLookup st.articles (store_key env f u item) with
  | some c =>
    rw [store_item_hit env st f u item c hl]
    by_cases hr : env.readFails (store_key env f u item) = true
    · rw [if_pos hr]; exact h
    · rw [if_neg hr]; exact h
  | none =>
    rw [store_item_fresh env st f u item hl]
    have hpres := (localize_images_preserves env st (extract_markdown env item)).1
    cases hloc : localize_images env st (extract_markdown env item) with
    | mk res st2 =>
      rw [hloc] at hpres
      cases res with
      | error e => dsimp only; rw [hpres]; exact h
      | ok updated =>
        dsimp only
        by_cases hw : env.writeFails (store_key env f u item) = true
        · rw [if_pos hw]; rw [hpres]; exact h
        · rw [if_neg hw]
          simp only [assocLookup_cons]
          have hne : store_key env f u item ≠ k := by
            intro hkk
            rw [hkk] at hl
            rw [hl] at h
            exact absurd h (by simp)
          rw [if_neg hne, hpres]
          exact h

/-- `store_item` only appends to the index log. -/
theorem store_item_index_mono (env : Env) (st : DbState) (f u : String)
    (item : Item) :
    ∃ tailRows, (store_item env st f u item).2.indexRows = st.indexRows ++ tailRows := by
  cases hl : assocLookup st.articles (store_key env f u item) with
  | some c =>
    rw [store_item_hit env st f u item c hl]
    by_cases hr : env.readFails (store_key env f u item) = true
    · rw [if_pos hr]; exact ⟨[], by simp⟩
    · rw [if_neg hr]; exact ⟨[], by simp⟩
  | none =>
    rw [store_item_fresh env st f u item hl]
    have hpres := (localize_images_preserves env st (extract_markdown env item)).2
    cases hloc : localize_images env st (extract_markdown env item) with
    | mk res st2 =>
      rw [hloc] at hpres
      cases res with
      | error e => exact ⟨[], by dsimp only; rw [hpres]; simp⟩
      | ok updated =>
        dsimp only
        by_cases hw : env.writeFails (store_key env f u item) = true
        · rw [if_pos hw]; exact ⟨[], by rw [hpres]; simp⟩
        · rw [if_neg hw]
          refine ⟨[[(parse_pub_date env item.pubDate).getD env.nowRfc3339,
                    item.title.getD "No Title", f,
                    env.storeDir ++ "/" ++ store_key env f u item]], ?_⟩
          dsimp only
          rw [hpres]

theorem store_channel_nil (env : Env) (st : DbState) (f u : String) :
    store_channel env st f u [] = (.ok (), st) := rfl

theorem store_channel_cons (env : Env) (st : DbState) (f u : String)
    (item : Item) (rest : List Item) :
    store_channel env st f u (item :: rest) =
      match store_item env st f u item with
      | (.error e, st2) => (.error e, st2)
      | (.ok _, st2) => store_channel env st2 f u rest := rfl

/-- Processing a concatenated item list processes the first part, then the
second from the reached state, stopping at the first error. -/
theorem store_channel_append (env : Env) (f u : String) :
    ∀ (pre post : List Item) (st : DbState),
    store_channel env st f u (pre ++ post) =
      match store_channel env st f u pre with
      | (.ok _, st1) => store_channel env st1 f u post
      | (.error e, st1) => (.error e, st1) := by
  intro pre
  induction pre with
  | nil => intro post st; rfl
  | cons item rest ih =>
    intro post st
    rw [List.cons_append, store_channel_cons, store_channel_cons]
    cases hs : store_item env st f u item with
    | mk res st2 =>
      cases res with
      | error e => rfl
      | ok v => dsimp only; exact ih post st2

/-- The string has no pipe character, so the identity separator cannot be
confused with field content. -/
def pipeFree (s : String) : Prop := '|' ∉ s.data

instance (s : String) : Decidable (pipeFree s) := by
  unfold pipeFree
  infer_instance

/-- Splitting at a separator character is unambiguous when the parts left of
the separator do not contain it. -/
theorem pipe_split : ∀ (a₁ a₂ r₁ r₂ : List Char), '|' ∉ a₁ → '|' ∉ a₂ →
    a₁ ++ '|' :: r₁ = a₂ ++ '|' :: r₂ → a₁ = a₂ ∧ r₁ = r₂ := by
  intro a₁
  induction a₁ with
  | nil =>
    intro a₂ r₁ r₂ h₁ h₂ heq
    cases a₂ with
    | nil =>
      simp only [List.nil_append, List.cons.injEq] at heq
      exact ⟨rfl, heq.2⟩
    | cons c rest =>
      simp only [List.nil_append, List.cons_append, List.cons.injEq] at heq
      exact absurd (heq.1 ▸ List.mem_cons_self c rest) h₂
  | cons c rest ih =>
    intro a₂ r₁ r₂ h₁ h₂ heq
    cases a₂ with
    | nil =>
      simp only [List.nil_append, List.cons_append, List.cons.injEq] at heq
      exact absurd (heq.1 ▸ List.mem_cons_self c rest) h₁
    | cons c2 rest2 =>
      simp only [List.cons_append, List.cons.injEq] at heq
      obtain ⟨hc, htail⟩ := heq
      have hrec := ih rest2 r₁ r₂
        (fun hm => h₁ (List.mem_cons_of_mem c hm))
        (fun hm => h₂ (List.mem_cons_of_mem c2 hm)) htail
      exact ⟨by rw [hc, hrec.1], hrec.2⟩

theorem item_hash_input_data (f u t l ts : String) :
    (item_hash_input f u t l ts).data =
      f.data ++ '|' :: (u.data ++ '|' :: (t.data ++ '|' :: (l.data ++ '|' :: ts.data))) := by
  unfold item_hash_input
  simp only [String.data_append, List.append_assoc]
  rfl

/-! Concrete environments used by witnesses and counterexamples. The digest
is instantiated with the identity function (any function is a valid
instance of the abstracted sha2 digest for these claims, none of which
relies on collision behaviour). -/

/-- Base test environment: identity digest and conversion, failing (404)
network, fault-free filesystem. -/
def testEnv : Env :=
  ⟨fun s => s, fun _ => none, fun _ => none, fun _ => "", "NOW", fun s => s,
   fun _ => .resp false none false "", fun _ => false, fun _ => false,
   "data/articles"⟩

/-- Environment whose network always succeeds with content type image/png. -/
def pngNetEnv : Env :=
  { testEnv with net := fun _ => .resp true (some "image/png") false "BYTES" }

/-- Environment whose network always fails with a transport error. -/
def errNetEnv : Env := { testEnv with net := fun _ => .netErr }

/-! Claims. -/

/-- Claim C7 (confirmed): rewriting replaces each whole HTML img tag by the
bracket+parenthesis form targeting the mapping's local reference for the
tag's src (falling back to the original src when unmapped), then
substitutes remaining raw occurrences of each mapped URL; in particular
the two concrete examples of the claim hold, as do the unmapped-fallback
case and the raw-substring case. -/
theorem claim_C7_theorem :
    apply_replacements "<img src=\"https://x/a.png\" alt=\"A\">"
        [("https://x/a.png", "/images/H.png")] = "![A](/images/H.png)" ∧
    apply_replacements "![A](https://x/a.png)"
        [("https://x/a.png", "/images/H.png")] = "![A](/images/H.png)" ∧
    apply_replacements "<img src=\"https://x/b.png\" alt=\"B\">"
        [("https://x/a.png", "/images/H.png")] = "![B](https://x/b.png)" ∧
    apply_replacements "see https://x/a.png here"
        [("https://x/a.png", "/images/H.png")] = "see /images/H.png here" :=
  ⟨rfl, rfl, rfl, rfl⟩

/-- Claim C4, counterexample: for url https://x/a.png with declared content
type image/gif, the content type alone determines gif, yet the resolved
extension is png — the URL path suffix takes priority, contradicting the
claimed content-type-first order. -/
theorem claim_C4_counterexample :
    content_type_extension (some "image/gif") = some "gif" ∧
    image_extension "https://x/a.png" (some "image/gif") = some "png" :=
  ⟨rfl, rfl⟩

/-- Claim C4 (corrected): for every successfully fetched image, the stored
asset's extension is resolved from the URL's path suffix first (mapped
through the fixed extension table), falling back to the response's
declared content type only when the path determines no suffix, falling
back to the generic extension when neither does. -/
theorem claim_C4_theorem (env : Env) (st : DbState) (url : String) (p : UrlParts)
    (ct : Option String) (bytes : String)
    (hp : parseUrl url = some p)
    (hs : p.scheme = "http" ∨ p.scheme = "https")
    (hmiss : assocLookup st.images (image_filename env url none) = none)
    (hnet : env.net url = .resp true ct false bytes)
    (hw : env.writeFails (image_filename env url ct) = false) :
    ∃ st₂, download_image env st url =
      (.ok (some ("/images/" ++ (hash_string env url ++ "." ++
        (match pathExtension p.path with
         | some e => owned_extension e
         | none => (content_type_extension ct).getD "img")))), st₂) := by
  have hext : image_filename env url ct =
      hash_string env url ++ "." ++
        (match pathExtension p.path with
         | some e => owned_extension e
         | none => (content_type_extension ct).getD "img") := by
    unfold image_filename image_extension
    rw [hp]
    dsimp only
    cases hpe : pathExtension p.path with
    | some e => rfl
    | none => rfl
  have hsch : ¬ (p.scheme ≠ "http" ∧ p.scheme ≠ "https") := by
    rcases hs with h | h <;> simp [h]
  rw [download_image_eq, hp]
  dsimp only
  rw [if_neg hsch, hmiss]
  dsimp only
  rw [hnet]
  dsimp only
  simp only [not_true, if_false, Bool.false_eq_true]
  cases h2 : assocLookup st.images (image_filename env url ct) with
  | some v =>
    dsimp only
    exact ⟨_, by rw [hext]⟩
  | none =>
    dsimp only
    rw [hw]
    simp only [Bool.false_eq_true, if_false]
    exact ⟨_, by rw [hext]⟩

/-- Claim C4, witness instantiation. -/
theorem claim_C4_witness :
    ∃ st₂, download_image pngNetEnv db0 "http://x/img" =
      (.ok (some "/images/http://x/img.png"), st₂) := by
  have h := claim_C4_theorem pngNetEnv db0 "http://x/img" ⟨"http", "/img"⟩
    (some "image/png") "BYTES" rfl (Or.inl rfl) rfl rfl rfl
  exact h

/-- Claim C5, counterexample: two distinct five-tuples whose pipe-joined
encodings coincide, so the separator is ambiguous. -/
theorem claim_C5_counterexample :
    item_hash_input "a|b" "c" "t" "l" "ts" = item_hash_input "a" "b|c" "t" "l" "ts" ∧
    ¬ (("a|b", "c", "t", "l", "ts") = ("a", "b|c", "t", "l", "ts")) :=
  ⟨rfl, by decide⟩

/-- Claim C5 (corrected): the identity encoding is injective on five-tuples
whose first four fields contain no pipe character: two such tuples that
differ produce different pre-digest inputs. -/
theorem claim_C5_theorem (f₁ u₁ t₁ l₁ ts₁ f₂ u₂ t₂ l₂ ts₂ : String)
    (hf₁ : pipeFree f₁) (hf₂ : pipeFree f₂) (hu₁ : pipeFree u₁) (hu₂ : pipeFree u₂)
    (ht₁ : pipeFree t₁) (ht₂ : pipeFree t₂) (hl₁ : pipeFree l₁) (hl₂ : pipeFree l₂)
    (h : item_hash_input f₁ u₁ t₁ l₁ ts₁ = item_hash_input f₂ u₂ t₂ l₂ ts₂) :
    f₁ = f₂ ∧ u₁ = u₂ ∧ t₁ = t₂ ∧ l₁ = l₂ ∧ ts₁ = ts₂ := by
  have hd := congrArg String.data h
  rw [item_hash_input_data, item_hash_input_data] at hd
  have h1 := pipe_split _ _ _ _ hf₁ hf₂ hd
  have h2 := pipe_split _ _ _ _ hu₁ hu₂ h1.2
  have h3 := pipe_split _ _ _ _ ht₁ ht₂ h2.2
  have h4 := pipe_split _ _ _ _ hl₁ hl₂ h3.2
  exact ⟨String.ext h1.1, String.ext h2.1, String.ext h3.1,
    String.ext h4.1, String.ext h4.2⟩

/-- Claim C5, witness instantiation. -/
theorem claim_C5_witness :
    "f" = "f" ∧ "u" = "u" ∧ "t" = "t" ∧ "l" = "l" ∧ "2024" = "2024" :=
  claim_C5_theorem "f" "u" "t" "l" "2024" "f" "u" "t" "l" "2024"
    (by decide) (by decide) (by decide) (by decide)
    (by decide) (by decide) (by decide) (by decide) rfl

/-- Claim C9 (confirmed): when the artifact file for the computed identity
exists but reading it fails, `store_item` neither propagates the error nor
returns the contents; it succeeds with the empty string and changes
nothing. -/
theorem claim_C9_theorem (env : Env) (st : DbState) (f u : String) (item : Item)
    (c : String)
    (h : assocLookup st.articles (store_key env f u item) = some c)
    (hr : env.readFails (store_key env f u item) = true) :
    store_item env st f u item = (.ok "", st) := by
  rw [store_item_hit env st f u item c h, if_pos hr]

/-- Environment whose reads always fail. -/
def roEnv : Env := { testEnv with readFails := fun _ => true }

/-- Claim C9, witness instantiation: the stored contents are not returned,
the call succeeds with the empty string. -/
theorem claim_C9_witness :
    store_item roEnv ⟨[("f|u|T9|L9|.md", "secret")], [], [], []⟩ "f" "u"
      ⟨some "T9", some "L9", none, some "body9", none⟩ =
      (.ok "", ⟨[("f|u|T9|L9|.md", "secret")], [], [], []⟩) :=
  claim_C9_theorem roEnv ⟨[("f|u|T9|L9|.md", "secret")], [], [], []⟩ "f" "u"
    ⟨some "T9", some "L9", none, some "body9", none⟩ "secret" rfl rfl

/-- Claim C2 (confirmed): after a first successful ingestion of a fresh
item, a second `store_item` with the same inputs returns the identical
artifact text and leaves the state unchanged — hence no network fetch, no
conversion and no index append — while the first call created exactly one
artifact file under the identity key and exactly one new index row. -/
theorem claim_C2_theorem (env : Env) (st : DbState) (f u : String) (item : Item)
    (text : String) (st₁ : DbState)
    (hfresh : assocLookup st.articles (store_key env f u item) = none)
    (h₁ : store_item env st f u item = (.ok text, st₁))
    (hr : env.readFails (store_key env f u item) = false) :
    store_item env st₁ f u item = (.ok text, st₁) ∧
    countKey st₁.articles (store_key env f u item) = 1 ∧
    st₁.indexRows.length = st.indexRows.length + 1 := by
  have hlook := store_item_ok_lookup env st f u item text st₁ h₁ hr
  refine ⟨?_, ?_⟩
  · rw [store_item_hit env st₁ f u item text hlook]
    simp [hr]
  · rw [store_item_fresh env st f u item hfresh] at h₁
    have hart := (localize_images_preserves env st (extract_markdown env item)).1
    have hidx := (localize_images_preserves env st (extract_markdown env item)).2
    cases hloc : localize_images env st (extract_markdown env item) with
    | mk res st2 =>
      rw [hloc] at h₁ hart hidx
      cases res with
      | error e => simp at h₁
      | ok updated =>
        dsimp only at h₁
        by_cases hw : env.writeFails (store_key env f u item) = true
        · simp [hw] at h₁
        · simp only [hw, Bool.false_eq_true, if_false, Prod.mk.injEq,
            Except.ok.injEq] at h₁
          obtain ⟨htext, hst⟩ := h₁
          constructor
          · rw [← hst]
            dsimp only
            rw [countKey_cons_self, hart,
              assocLookup_none_countKey st.articles _ hfresh]
          · rw [← hst]
            dsimp only
            rw [hidx]
            simp

/-- Claim C2, witness instantiation: second ingestion of the same item
returns the same text and the unchanged state; one artifact, one row. -/
theorem claim_C2_witness :
    store_item testEnv
        ⟨[("f|u|T2|L2|.md", "hello2")], [],
         [["NOW", "T2", "f", "data/articles/f|u|T2|L2|.md"]], []⟩ "f" "u"
        ⟨some "T2", some "L2", none, some "hello2", none⟩ =
      (.ok "hello2",
       ⟨[("f|u|T2|L2|.md", "hello2")], [],
        [["NOW", "T2", "f", "data/articles/f|u|T2|L2|.md"]], []⟩) ∧
    countKey (⟨[("f|u|T2|L2|.md", "hello2")], [],
      [["NOW", "T2", "f", "data/articles/f|u|T2|L2|.md"]], []⟩ : DbState).articles
      (store_key testEnv "f" "u" ⟨some "T2", some "L2", none, some "hello2", none⟩) = 1 ∧
    (⟨[("f|u|T2|L2|.md", "hello2")], [],
      [["NOW", "T2", "f", "data/articles/f|u|T2|L2|.md"]], []⟩ : DbState).indexRows.length =
      db0.indexRows.length + 1 :=
  claim_C2_theorem testEnv db0 "f" "u"
    ⟨some "T2", some "L2", none, some "hello2", none⟩ "hello2"
    ⟨[("f|u|T2|L2|.md", "hello2")], [],
     [["NOW", "T2", "f", "data/articles/f|u|T2|L2|.md"]], []⟩ rfl rfl rfl

/-- Claim C6 (confirmed): `read_item_markdown` recomputes the identical
filename from the same five identity inputs (see the definitional
equation `read_item_markdown_eq`, whose key is the very `store_key` that
`store_item` uses) and is a pure read; after a successful `store_item`
with the same inputs it returns exactly the artifact text, and for a
not-yet-ingested identity it returns `none` rather than an error. -/
theorem claim_C6_theorem (env : Env) (st : DbState) (f u : String) (item : Item)
    (text : String) (st₁ : DbState) :
    (store_item env st f u item = (.ok text, st₁) →
      env.readFails (store_key env f u item) = false →
      read_item_markdown env st₁ f u item = some text) ∧
    (assocLookup st.articles (store_key env f u item) = none →
      read_item_markdown env st f u item = none) := by
  constructor
  · intro h hr
    rw [read_item_markdown_eq]
    simp only [hr, Bool.false_eq_true, if_false]
    exact store_item_ok_lookup env st f u item text st₁ h hr
  · intro hnone
    rw [read_item_markdown_eq]
    by_cases hr : env.readFails (store_key env f u item) = true
    · rw [if_pos hr]
    · rw [if_neg hr]
      by_cases hrf : env.readFails (store_key env f u item) = true
      · exact absurd hrf hr
      · exact hnone

/-- Claim C6, witness instantiation: read-back after ingestion returns the
written artifact; read-back of an unknown identity returns none. -/
theorem claim_C6_witness :
    read_item_markdown testEnv
      ⟨[("f|u|T6|L6|.md", "hello6")], [],
       [["NOW", "T6", "f", "data/articles/f|u|T6|L6|.md"]], []⟩ "f" "u"
      ⟨some "T6", some "L6", none, some "hello6", none⟩ = some "hello6" ∧
    read_item_markdown testEnv db0 "f" "u"
      ⟨some "T6", some "L6", none, some "hello6", none⟩ = none :=
  ⟨(claim_C6_theorem testEnv db0 "f" "u"
      ⟨some "T6", some "L6", none, some "hello6", none⟩ "hello6"
      ⟨[("f|u|T6|L6|.md", "hello6")], [],
       [["NOW", "T6", "f", "data/articles/f|u|T6|L6|.md"]], []⟩).1 rfl rfl,
   (claim_C6_theorem testEnv db0 "f" "u"
      ⟨some "T6", some "L6", none, some "hello6", none⟩ "hello6"
      ⟨[("f|u|T6|L6|.md", "hello6")], [],
       [["NOW", "T6", "f", "data/articles/f|u|T6|L6|.md"]], []⟩).2 rfl⟩

/-- Claim C8 (confirmed): the identity uses the fixed placeholder for an
absent title and the empty string for an absent link; the timestamp is
parsed by the RFC 2822 parser first and the RFC 3339 parser second, the
result normalized and formatted as UTC; an absent result contributes the
empty string to the identity key, while the appended index row records
the current time instead. -/
theorem claim_C8_theorem (env : Env) (st : DbState) (f u : String) (item : Item)
    (text : String) (st' : DbState)
    (hfresh : assocLookup st.articles (store_key env f u item) = none)
    (h : store_item env st f u item = (.ok text, st')) :
    (∀ raw, parse_pub_date env (some raw) =
      (match env.parseRfc2822 raw with
       | some dt => some dt
       | none => env.parseRfc3339 raw).map env.formatUtcRfc3339) ∧
    parse_pub_date env none = none ∧
    store_key env f u item =
      item_filename env f u (item.title.getD "No Title") (item.link.getD "")
        ((parse_pub_date env item.pubDate).getD "") ∧
    st'.indexRows = st.indexRows ++
      [[(parse_pub_date env item.pubDate).getD env.nowRfc3339,
        item.title.getD "No Title", f,
        env.storeDir ++ "/" ++ store_key env f u item]] := by
  refine ⟨fun raw => rfl, rfl, rfl, ?_⟩
  rw [store_item_fresh env st f u item hfresh] at h
  have hidx := (localize_images_preserves env st (extract_markdown env item)).2
  cases hloc : localize_images env st (extract_markdown env item) with
  | mk res st2 =>
    rw [hloc] at h hidx
    cases res with
    | error e => simp at h
    | ok updated =>
      dsimp only at h
      by_cases hw : env.writeFails (store_key env f u item) = true
      · simp [hw] at h
      · simp only [hw, Bool.false_eq_true, if_false, Prod.mk.injEq,
          Except.ok.injEq] at h
        rw [← h.2]
        dsimp only
        rw [hidx]

/-- Claim C8, witness instantiation: absent title and link take their
defaults, the unparseable date contributes the empty string to the key
and the current time to the row. -/
theorem claim_C8_witness :
    (∀ raw, parse_pub_date testEnv (some raw) =
      (match testEnv.parseRfc2822 raw with
       | some dt => some dt
       | none => testEnv.parseRfc3339 raw).map testEnv.formatUtcRfc3339) ∧
    parse_pub_date testEnv none = none ∧
    store_key testEnv "f" "u" ⟨none, none, some "not a date", some "c8", none⟩ =
      item_filename testEnv "f" "u"
        ((⟨none, none, some "not a date", some "c8", none⟩ : Item).title.getD "No Title")
        ((⟨none, none, some "not a date", some "c8", none⟩ : Item).link.getD "")
        ((parse_pub_date testEnv (some "not a date")).getD "") ∧
    (⟨[("f|u|No Title||.md", "c8")], [],
      [["NOW", "No Title", "f", "data/articles/f|u|No Title||.md"]], []⟩
        : DbState).indexRows =
      db0.indexRows ++
      [[(parse_pub_date testEnv (some "not a date")).getD testEnv.nowRfc3339,
        "No Title", "f",
        "data/articles" ++ "/" ++
          store_key testEnv "f" "u" ⟨none, none, some "not a date", some "c8", none⟩]] :=
  claim_C8_theorem testEnv db0 "f" "u" ⟨none, none, some "not a date", some "c8", none⟩
    "c8"
    ⟨[("f|u|No Title||.md", "c8")], [],
     [["NOW", "No Title", "f", "data/articles/f|u|No Title||.md"]], []⟩ rfl rfl

/-- Claim C10 (confirmed): `store_channel` ingests items strictly in order,
stops at the first failing item and propagates its error, while the
artifacts and index rows persisted by the earlier items remain in the
final state (no rollback). -/
theorem claim_C10_theorem (env : Env) (st st₁ st₂ : DbState) (f u : String)
    (pre : List Item) (bad : Item) (post : List Item) (e : String)
    (hpre : store_channel env st f u pre = (.ok (), st₁))
    (hbad : store_item env st₁ f u bad = (.error e, st₂)) :
    store_channel env st f u (pre ++ bad :: post) = (.error e, st₂) ∧
    (∀ k v, assocLookup st₁.articles k = some v →
      assocLookup st₂.articles k = some v) ∧
    (∃ tailRows, st₂.indexRows = st₁.indexRows ++ tailRows) := by
  refine ⟨?_, ?_, ?_⟩
  · rw [store_channel_append env f u pre (bad :: post) st, hpre]
    dsimp only
    rw [store_channel_cons, hbad]
  · intro k v hv
    have hm := store_item_article_mono env st₁ f u bad k v hv
    rw [hbad] at hm
    exact hm
  · have hm := store_item_index_mono env st₁ f u bad
    rw [hbad] at hm
    exact hm

/-- Claim C10, witness instantiation: the first item is ingested, the second
fails on a network error; the channel call returns that error and the
first item's artifact and row persist. -/
theorem claim_C10_witness :
    store_channel errNetEnv db0 "f" "u"
        [⟨some "A", some "LA", none, some "plainA", none⟩,
         ⟨some "B", some "LB", none, some "![x](http://b/i.png)", none⟩] =
      (.error "error sending request",
       ⟨[("f|u|A|LA|.md", "plainA")], [],
        [["NOW", "A", "f", "data/articles/f|u|A|LA|.md"]], ["http://b/i.png"]⟩) ∧
    assocLookup
      (⟨[("f|u|A|LA|.md", "plainA")], [],
        [["NOW", "A", "f", "data/articles/f|u|A|LA|.md"]],
        ["http://b/i.png"]⟩ : DbState).articles "f|u|A|LA|.md" = some "plainA" ∧
    (∃ tailRows,
      (⟨[("f|u|A|LA|.md", "plainA")], [],
        [["NOW", "A", "f", "data/articles/f|u|A|LA|.md"]],
        ["http://b/i.png"]⟩ : DbState).indexRows =
      (⟨[("f|u|A|LA|.md", "plainA")], [],
        [["NOW", "A", "f", "data/articles/f|u|A|LA|.md"]], []⟩ : DbState).indexRows
        ++ tailRows) := by
  have h := claim_C10_theorem errNetEnv db0
    ⟨[("f|u|A|LA|.md", "plainA")], [],
     [["NOW", "A", "f", "data/articles/f|u|A|LA|.md"]], []⟩
    ⟨[("f|u|A|LA|.md", "plainA")], [],
     [["NOW", "A", "f", "data/articles/f|u|A|LA|.md"]], ["http://b/i.png"]⟩
    "f" "u" [⟨some "A", some "LA", none, some "plainA", none⟩]
    ⟨some "B", some "LB", none, some "![x](http://b/i.png)", none⟩ []
    "error sending request" rfl rfl
  exact ⟨h.1, h.2.1 "f|u|A|LA|.md" "plainA" rfl, h.2.2⟩

/-- Claim C3, counterexample: for a URL whose extension is resolved from
the content type (no path suffix), the asset is written under the
resolved name, yet a second localize call misses the fast-path check on
the provisional generic-extension name and performs a second network
fetch (the fetch log grows to two entries), contradicting the claimed
absence of network fetches for every cached URL. -/
theorem claim_C3_counterexample :
    (download_image pngNetEnv db0 "http://x/img").1 =
      .ok (some "/images/http://x/img.png") ∧
    assocLookup (download_image pngNetEnv db0 "http://x/img").2.images
      "http://x/img.png" = some "BYTES" ∧
    (download_image pngNetEnv
        (download_image pngNetEnv db0 "http://x/img").2 "http://x/img").1 =
      .ok (some "/images/http://x/img.png") ∧
    (download_image pngNetEnv
        (download_image pngNetEnv db0 "http://x/img").2 "http://x/img").2.fetchLog =
      ["http://x/img", "http://x/img"] :=
  ⟨rfl, rfl, rfl, rfl⟩

/-- Claim C3 (corrected): after a successful localize of a URL, every later
localize call for the same URL returns the same reference and writes no
further asset file; the fast-path check prevents the second network fetch
only when the provisional (generic-extension) filename is itself cached —
when the extension was resolved from the content type the URL is fetched
again, but the existing file is reused. -/
theorem claim_C3_theorem (env : Env) (st : DbState) (url : String)
    (localRef : String) (st₁ : DbState)
    (h : download_image env st url = (.ok (some localRef), st₁)) :
    ∃ st₂, download_image env st₁ url = (.ok (some localRef), st₂) ∧
      st₂.images = st₁.images ∧
      ((assocLookup st₁.images (image_filename env url none)).isSome →
        st₂ = st₁) := by
  rw [download_image_eq] at h
  cases hp : parseUrl url with
  | none => rw [hp] at h; exact absurd h (by simp)
  | some parsed =>
    rw [hp] at h
    dsimp only at h
    by_cases hs : parsed.scheme ≠ "http" ∧ parsed.scheme ≠ "https"
    · rw [if_pos hs] at h; exact absurd h (by simp)
    · rw [if_neg hs] at h
      cases h1 : assocLookup st.images (image_filename env url none) with
      | some v =>
        rw [h1] at h
        dsimp only at h
        simp only [Prod.mk.injEq, Except.ok.injEq, Option.some.injEq] at h
        obtain ⟨hl, hstq⟩ := h
        refine ⟨st₁, ?_, rfl, fun _ => rfl⟩
        rw [download_image_eq env st₁ url, hp]
        dsimp only
        rw [if_neg hs, ← hstq, h1]
        dsimp only
        rw [hl]
      | none =>
        rw [h1] at h
        dsimp only at h
        cases hn : env.net url with
        | netErr => rw [hn] at h; exact absurd h (by simp)
        | resp success ct bodyErr bytes =>
          rw [hn] at h
          dsimp only at h
          by_cases hsu : success = true
          · rw [hsu] at h
            simp only [not_true, if_false, Bool.false_eq_true] at h
            by_cases hb : bodyErr = true
            · rw [hb] at h
              simp only [if_true] at h
              exact absurd h (by simp)
            · simp only [hb, Bool.false_eq_true, if_false] at h
              cases h2 : assocLookup st.images (image_filename env url ct) with
              | some w =>
                rw [h2] at h
                dsimp only at h
                simp only [Prod.mk.injEq, Except.ok.injEq, Option.some.injEq] at h
                obtain ⟨hl, hstq⟩ := h
                have himg : st₁.images = st.images := by rw [← hstq]
                refine ⟨{ st₁ with fetchLog := st₁.fetchLog ++ [url] }, ?_, rfl, ?_⟩
                · rw [download_image_eq env st₁ url, hp]
                  dsimp only
                  rw [if_neg hs, himg, h1]
                  dsimp only
                  rw [hn]
                  dsimp only
                  rw [hsu]
                  simp only [not_true, if_false, Bool.false_eq_true]
                  simp only [hb, Bool.false_eq_true, if_false]
                  rw [h2]
                  dsimp only
                  rw [hl]
                · intro hfast
                  rw [himg, h1] at hfast
                  simp at hfast
              | none =>
                rw [h2] at h
                dsimp only at h
                by_cases hw : env.writeFails (image_filename env url ct) = true
                · rw [if_pos hw] at h
                  exact absurd h (by simp)
                · rw [if_neg hw] at h
                  simp only [Prod.mk.injEq, Except.ok.injEq, Option.some.injEq] at h
                  obtain ⟨hl, hstq⟩ := h
                  have himg : st₁.images =
                      (image_filename env url ct, bytes) :: st.images := by
                    rw [← hstq]
                  by_cases hfn : image_filename env url ct = image_filename env url none
                  · -- the provisional and resolved names agree: fast path hits
                    refine ⟨st₁, ?_, rfl, fun _ => rfl⟩
                    rw [download_image_eq env st₁ url, hp]
                    dsimp only
                    rw [if_neg hs, himg, assocLookup_cons, if_pos hfn]
                    dsimp only
                    rw [← hl, hfn]
                  · -- names differ: fast path misses, the URL is re-fetched,
                    -- the cached file is found under the resolved name
                    refine ⟨{ st₁ with fetchLog := st₁.fetchLog ++ [url] }, ?_, rfl, ?_⟩
                    · rw [download_image_eq env st₁ url, hp]
                      dsimp only
                      rw [if_neg hs, himg, assocLookup_cons, if_neg hfn, h1]
                      dsimp only
                      rw [hn]
                      dsimp only
                      rw [hsu]
                      simp only [not_true, if_false, Bool.false_eq_true]
                      simp only [hb, Bool.false_eq_true, if_false]
                      rw [assocLookup_cons, if_pos rfl]
                      dsimp only
                      rw [hl]
                    · intro hfast
                      rw [himg, assocLookup_cons, if_neg hfn, h1] at hfast
                      simp at hfast
          · -- non-success response cannot have produced a reference
            simp only [Bool.not_eq_true] at hsu
            rw [hsu] at h
            simp only [Bool.false_eq_true, not_false_iff, if_true] at h
            exact absurd h (by simp)

/-- Claim C3, witness instantiation: a URL with a path-determined extension
takes the fast path on the second call — same reference, no new image, no
state change at all. -/
theorem claim_C3_witness :
    ∃ st₂, download_image pngNetEnv
        (download_image pngNetEnv db0 "http://x/a.png").2 "http://x/a.png" =
        (.ok (some "/images/http://x/a.png.png"), st₂) ∧
      st₂.images = (download_image pngNetEnv db0 "http://x/a.png").2.images ∧
      ((assocLookup (download_image pngNetEnv db0 "http://x/a.png").2.images
          (image_filename pngNetEnv "http://x/a.png" none)).isSome →
        st₂ = (download_image pngNetEnv db0 "http://x/a.png").2) :=
  claim_C3_theorem pngNetEnv db0 "http://x/a.png" "/images/http://x/a.png.png"
    (download_image pngNetEnv db0 "http://x/a.png").2 rfl

/-- The failure kinds of `download_image` that the code absorbs into an
absent result: an unparseable URL, a non-http(s) scheme, or (when the
provisional filename is not cached, so the fetch happens) a non-success
HTTP status. -/
def isAbsorbedFailure (env : Env) (images : List (String × String)) (url : String) :
    Bool :=
  match parseUrl url with
  | none => true
  | some parsed =>
    if parsed.scheme ≠ "http" ∧ parsed.scheme ≠ "https" then true
    else
      match assocLookup images (image_filename env url none) with
      | some _ => false
      | none =>
        match env.net url with
        | .resp false _ _ _ => true
        | _ => false

/-- For an absorbed failure, `download_image` returns an absent result and
changes at most the fetch log. -/
theorem download_image_absorbed (env : Env) (st : DbState) (url : String)
    (h : isAbsorbedFailure env st.images url = true) :
    ∃ st', download_image env st url = (.ok none, st') ∧
      st'.images = st.images ∧ st'.articles = st.articles ∧
      st'.indexRows = st.indexRows := by
  unfold isAbsorbedFailure at h
  rw [download_image_eq]
  cases hp : parseUrl url with
  | none => exact ⟨st, rfl, rfl, rfl, rfl⟩
  | some parsed =>
    rw [hp] at h
    dsimp only at h ⊢
    by_cases hs : parsed.scheme ≠ "http" ∧ parsed.scheme ≠ "https"
    · rw [if_pos hs]
      exact ⟨st, rfl, rfl, rfl, rfl⟩
    · rw [if_neg hs] at h ⊢
      cases h1 : assocLookup st.images (image_filename env url none) with
      | some v => rw [h1] at h; simp at h
      | none =>
        rw [h1] at h
        dsimp only at h
        cases hn : env.net url with
        | netErr => rw [hn] at h; simp at h
        | resp success ct bodyErr bytes =>
          rw [hn] at h
          cases success with
          | true => simp at h
          | false =>
            dsimp only
            simp only [Bool.false_eq_true, not_false_iff, if_true]
            exact ⟨_, rfl, rfl, rfl, rfl⟩

/-- A download loop over URLs that all fail in an absorbed way produces an
empty mapping and changes at most the fetch log. -/
theorem localizeLoop_absorbed (env : Env) :
    ∀ (urls : List String) (st : DbState),
    (∀ url ∈ urls, isAbsorbedFailure env st.images url = true) →
    ∃ st', localizeLoop env urls [] st = (.ok [], st') ∧
      st'.images = st.images ∧ st'.articles = st.articles ∧
      st'.indexRows = st.indexRows := by
  intro urls
  induction urls with
  | nil => intro st _; exact ⟨st, rfl, rfl, rfl, rfl⟩
  | cons url rest ih =>
    intro st habs
    obtain ⟨st', hdl, him, hart, hidx⟩ :=
      download_image_absorbed env st url (habs url (List.mem_cons_self url rest))
    obtain ⟨st'', hloop, him2, hart2, hidx2⟩ := ih st' (fun v hv => by
      rw [him]
      exact habs v (List.mem_cons_of_mem url hv))
    refine ⟨st'', ?_, him2.trans him, hart2.trans hart, hidx2.trans hidx⟩
    unfold localizeLoop
    dsimp only [assocLookup]
    rw [hdl]
    exact hloop

/-- Claim C1, counterexample: an item whose only image reference produces a
network transport error during the fetch; the failure is not absorbed —
`localize_images` returns an error and `store_item` propagates it, so
ingestion of the article fails. -/
theorem claim_C1_counterexample :
    (localize_images errNetEnv db0 "![x](http://a/b.png)").1 =
      .error "error sending request" ∧
    (store_item errNetEnv db0 "f" "u"
      ⟨some "T1", some "L1", none, some "![x](http://a/b.png)", none⟩).1 =
      .error "error sending request" :=
  ⟨rfl, rfl⟩

/-- Claim C1 (corrected): per-image localization failures of the absorbed
kinds — an unparseable URL, a non-http(s) scheme, or a non-success HTTP
status on an uncached URL — cause `download_image` to return an absent
result (not an error) leaving every reference pointing at its original
remote URL, and `store_item` still completes and returns the artifact
text; network transport errors during fetch or body read, and image-file
write errors, are instead propagated and fail the ingestion. -/
theorem claim_C1_theorem (env : Env) (st : DbState) (f u : String) (item : Item)
    (hfresh : assocLookup st.articles (store_key env f u item) = none)
    (hw : env.writeFails (store_key env f u item) = false)
    (hurls : extract_image_urls (extract_markdown env item) ≠ [])
    (habs : ∀ url ∈ extract_image_urls (extract_markdown env item),
      isAbsorbedFailure env st.images url = true) :
    (∀ url ∈ extract_image_urls (extract_markdown env item),
      (download_image env st url).1 = .ok none) ∧
    ∃ st', store_item env st f u item =
      (.ok (apply_replacements (extract_markdown env item) []), st') ∧
      st'.images = st.images := by
  constructor
  · intro url hu
    obtain ⟨st', hdl, _⟩ := download_image_absorbed env st url (habs url hu)
    rw [hdl]
  · obtain ⟨st', hloop, him, hart, hidx⟩ :=
      localizeLoop_absorbed env (extract_image_urls (extract_markdown env item)) st habs
    have hloc : localize_images env st (extract_markdown env item) =
        (.ok (apply_replacements (extract_markdown env item) []), st') := by
      rw [localize_images_eq]
      rw [if_neg (by simp [List.isEmpty_iff, hurls])]
      rw [hloop]
    rw [store_item_fresh env st f u item hfresh, hloc]
    dsimp only
    rw [hw]
    simp only [Bool.false_eq_true, if_false]
    exact ⟨_, rfl, him⟩

/-- Claim C1, witness instantiation: one ftp-scheme reference and one
http reference answered with a non-success status; both are absorbed, the
artifact keeps both original URLs, ingestion succeeds. -/
theorem claim_C1_witness :
    (∀ url ∈ extract_image_urls (extract_markdown testEnv
        ⟨some "TW", some "LW", none,
         some "![a](ftp://q/z) ![b](http://w/i.png)", none⟩),
      (download_image testEnv db0 url).1 = .ok none) ∧
    ∃ st', store_item testEnv db0 "f" "u"
        ⟨some "TW", some "LW", none,
         some "![a](ftp://q/z) ![b](http://w/i.png)", none⟩ =
      (.ok (apply_replacements "![a](ftp://q/z) ![b](http://w/i.png)" []), st') ∧
      st'.images = db0.images :=
  claim_C1_theorem testEnv db0 "f" "u"
    ⟨some "TW", some "LW", none,
     some "![a](ftp://q/z) ![b](http://w/i.png)", none⟩
    rfl rfl (by decide) (by decide)

end RssReader
